import Mathlib

/-!
Shallow embedding of `train.py` from the MetaDTA repository: the metric
aggregation performed per batch in `train`/`test`, the epoch loop of `train`
with its best-checkpoint logic, the learning-rate scheduler
`adjust_learning_rate`, and the post-training tail of `__main__`.
Tensors are modelled as nested lists of rationals; Python exceptions are
modelled with `Except Unit`.
-/

/-- Tensor of shape (batch, seq, feat), modelled as a nested list of rationals. -/
abbrev Tensor3 : Type := List (List (List ℚ))

/-- Per-batch data reaching the metric-accumulation code in `train`/`test`:
the batch tensors `context_y` and `target_y_f`, the model output `y_pred`
(the model is an external collaborator, so its output is an input here), and
the scalar `loss.item()`. -/
structure BatchResult where
  context_y : Tensor3
  target_y_f : Tensor3
  y_pred : Tensor3
  loss : ℚ

/-- Support-set size of a batch: `context_y.size()[-2]`, the length of the
second-to-last dimension (per-episode sequence length of `context_y`). -/
def supportSize (b : BatchResult) : Nat :=
  (b.context_y.headD []).length

/-- Slice `x[:, s:, :]`: drop the first `s` sequence positions in every
episode. -/
def querySlice (s : Nat) (x : Tensor3) : Tensor3 :=
  x.map (fun seq => seq.drop s)

/-- Row-major flattening of a (batch, seq, feat) tensor, the element order in
which PyTorch boolean-mask indexing returns the selected elements. -/
def flat3 (x : Tensor3) : List ℚ :=
  (x.map List.flatten).flatten

/-- Shape of a (batch, seq, feat) tensor: the nested structure of lengths. -/
def shape3 (x : Tensor3) : List (List Nat) :=
  x.map (fun seq => seq.map List.length)

/-- Elementwise mask `t.where(v > 0, True, False)` over the flattened tensor. -/
def maskOf (tq : List ℚ) : List Bool :=
  tq.map (fun v => decide (0 < v))

/-- Boolean-mask indexing `x[mask]` over flattened elements: keep the elements
of `xs` at the positions where `mask` is `true`. -/
def selectByMask (mask : List Bool) (xs : List ℚ) : List ℚ :=
  ((mask.zip xs).filter Prod.fst).map Prod.snd

/-- Models `acc += sel_tensor.squeeze().detach().cpu().tolist()`.  When the
selected 1-D tensor has exactly one element, `squeeze()` yields a 0-dim tensor
whose `tolist()` is a bare Python float, and `list += float` raises
`TypeError`; otherwise `tolist()` is a list and `+=` extends `acc` with it. -/
def extendSqueezed (acc : List ℚ) (sel : List ℚ) : Except Unit (List ℚ) :=
  if sel.length = 1 then Except.error () else Except.ok (acc ++ sel)

/-- Per-batch metric accumulation (lines 56-66 of `train`, and likewise in
the validation and `test` loops): slice the query region of `target_y_f` and
`y_pred`, build the mask `target_y_r > 0`, select the masked elements of both,
and extend the running truth and prediction lists. -/
def accumBatch (acc : List ℚ × List ℚ) (b : BatchResult) :
    Except Unit (List ℚ × List ℚ) :=
  let tq := flat3 (querySlice (supportSize b) b.target_y_f)
  let pq := flat3 (querySlice (supportSize b) b.y_pred)
  let mask := maskOf tq
  match extendSqueezed acc.1 (selectByMask mask tq) with
  | Except.error e => Except.error e
  | Except.ok t1 =>
    match extendSqueezed acc.2 (selectByMask mask pq) with
    | Except.error e => Except.error e
    | Except.ok p1 => Except.ok (t1, p1)

/-- Accumulation across the batches of an epoch, starting from given running
lists; a raised exception aborts the epoch. -/
def epochAccumFrom (acc : List ℚ × List ℚ) :
    List BatchResult → Except Unit (List ℚ × List ℚ)
  | [] => Except.ok acc
  | b :: bs =>
    match accumBatch acc b with
    | Except.error e => Except.error e
    | Except.ok acc2 => epochAccumFrom acc2 bs

/-- Epoch accumulation starting from the empty lists `truth_list, pred_list = [], []`. -/
def epochAccum (batches : List BatchResult) : Except Unit (List ℚ × List ℚ) :=
  epochAccumFrom ([], []) batches

/-- Models `sklearn.metrics.mean_absolute_error`: the input validation
(`check_array` with `ensure_min_samples=1` and the consistent-length check)
raises `ValueError` on an empty collection or mismatched lengths; otherwise
the result is the mean absolute difference. -/
def mean_absolute_error (y_true y_hat : List ℚ) : Except Unit ℚ :=
  if y_true.length = 0 ∨ y_true.length ≠ y_hat.length then Except.error ()
  else Except.ok ((((y_true.zip y_hat).map (fun p => |p.1 - p.2|)).sum) / (y_true.length : ℚ))

/-- Epoch-level metric computation (lines 69-73 of `train`, mirrored by the
validation and `test` loops): accumulate all batches, then compute the MAE of
the collected pairs and the unweighted mean of the per-batch losses. -/
def epochMetrics (batches : List BatchResult) : Except Unit (ℚ × ℚ) :=
  match epochAccum batches with
  | Except.error e => Except.error e
  | Except.ok tp =>
    match mean_absolute_error tp.1 tp.2 with
    | Except.error e => Except.error e
    | Except.ok mae =>
      if batches.length = 0 then Except.error ()
      else Except.ok (mae, ((batches.map BatchResult.loss).sum) / (batches.length : ℚ))

/-- Flattened query region of a batch's `target_y_f`. -/
def queryTruth (b : BatchResult) : List ℚ :=
  flat3 (querySlice (supportSize b) b.target_y_f)

/-- Flattened query region of a batch's `y_pred`. -/
def queryPred (b : BatchResult) : List ℚ :=
  flat3 (querySlice (supportSize b) b.y_pred)

/-- Number of strictly positive entries in the query region of `target_y_f`. -/
def posCount (b : BatchResult) : Nat :=
  (queryTruth b).countP (fun v => decide (0 < v))

/-- Record persisted by `t.save({...}, os.path.join(args.logdir, "model.pt"))`:
exactly the three fields written at line 118-122 of `train.py`.  `S` is the
type of model state dicts, `O` of optimizer state dicts, `A` of the parsed
run configuration. -/
structure Checkpoint (S O A : Type) where
  model_state_dict : S
  optimizer_state_dict : O
  args : A

/-- Mutable state of the `train` function across epochs.  `best_loss = none`
models the initial `float(inf)`; `best_model = none` and
`trigger_count = none` model Python local variables that have not been
assigned yet (referencing them would raise `UnboundLocalError`);
`checkpoint = none` models the absence of `{logdir}/model.pt` on disk. -/
structure TrainState (M S O A : Type) where
  best_loss : Option ℚ
  best_model : Option M
  trigger_count : Option Nat
  checkpoint : Option (Checkpoint S O A)
  epochs_run : Nat

/-- Comparison `l < best_loss` where `best_loss` may still be `float(inf)`
(`none`).  Every rational is below infinity. -/
def ltInf (l : ℚ) : Option ℚ → Bool
  | none => true
  | some m => decide (l < m)

/-- End-of-epoch checkpoint decision (lines 113-122 of `train.py`): if the
epoch's validation loss strictly improves on `best_loss`, record the new best
loss, deep-copy the current model, reset the trigger counter to zero and
overwrite the checkpoint with the three-field record; otherwise leave
everything unchanged.  `modelAt e` is the model object's value during epoch
`e` (deep copy semantics: a value, immutable once taken), `stateDict` its
serialization, `optAt e` the optimizer state at epoch `e`. -/
def trainStep {M S O A : Type} (stateDict : M → S) (modelAt : Nat → M)
    (optAt : Nat → O) (args : A) (st : TrainState M S O A) (e : Nat) (l : ℚ) :
    TrainState M S O A :=
  if ltInf l st.best_loss then
    ⟨some l, some (modelAt e), some 0,
      some ⟨stateDict (modelAt e), optAt e, args⟩, st.epochs_run + 1⟩
  else
    ⟨st.best_loss, st.best_model, st.trigger_count, st.checkpoint, st.epochs_run + 1⟩

/-- Epoch loop of `train` from epoch `e` onwards, given the per-epoch
validation losses still to come.  Returns the final state together with the
per-epoch checkpoint-write flags, in epoch order. -/
def trainLoopAux {M S O A : Type} (stateDict : M → S) (modelAt : Nat → M)
    (optAt : Nat → O) (args : A) (e : Nat) (st : TrainState M S O A) :
    List ℚ → TrainState M S O A × List Bool
  | [] => (st, [])
  | l :: ls =>
    let r := trainLoopAux stateDict modelAt optAt args (e + 1)
      (trainStep stateDict modelAt optAt args st e l) ls
    (r.1, ltInf l st.best_loss :: r.2)

/-- Initial state at the top of `train`: `best_loss = float(inf)`, no best
model, no trigger counter, no checkpoint on disk, no epoch run. -/
def initTrainState (M S O A : Type) : TrainState M S O A :=
  ⟨none, none, none, none, 0⟩

/-- The whole epoch loop of `train`, driven by the list of per-epoch
validation losses (one entry per epoch, so `losses.length = n_epochs`). -/
def trainLoop {M S O A : Type} (stateDict : M → S) (modelAt : Nat → M)
    (optAt : Nat → O) (args : A) (losses : List ℚ) :
    TrainState M S O A × List Bool :=
  trainLoopAux stateDict modelAt optAt args 0 (initTrainState M S O A) losses

/-- Return value of `train` (line 124, `return best_model`): the local
`best_model` if it was ever assigned, otherwise the `UnboundLocalError`
raised by referencing an unassigned local. -/
def trainReturn {M S O A : Type} (stateDict : M → S) (modelAt : Nat → M)
    (optAt : Nat → O) (args : A) (losses : List ℚ) : Except Unit M :=
  match (trainLoop stateDict modelAt optAt args losses).1.best_model with
  | some m => Except.ok m
  | none => Except.error ()

/-- Checkpoint-write flags alone, as a recursion over the loss list: the flag
of an epoch is `ltInf l best`, and `best_loss` is updated exactly on
improvement. -/
def epochFlags (best : Option ℚ) : List ℚ → List Bool
  | [] => []
  | l :: ls =>
    ltInf l best :: epochFlags (if ltInf l best then some l else best) ls

/-- Index of the last `true` in a list of flags, if any. -/
def lastTrue : List Bool → Option Nat
  | [] => none
  | b :: bs =>
    match lastTrue bs with
    | some i => some (i + 1)
    | none => if b then some 0 else none

/-- Learning-rate formula of `adjust_learning_rate` (line 22 of `train.py`):
`init_lr * warmup_step**0.5 * min(step_num * warmup_step**-1.5, step_num**-0.5)`. -/
noncomputable def lrFormula (init_lr warmup step : ℝ) : ℝ :=
  init_lr * warmup ^ (0.5 : ℝ) *
    min (step * warmup ^ (-1.5 : ℝ)) (step ^ (-(0.5 : ℝ)))

/-- One optimizer parameter group; only its `lr` entry is touched here. -/
structure ParamGroup where
  lr : ℝ

/-- The function `adjust_learning_rate(init_lr, optimizer, step_num,
warmup_step=4000)`: compute the scheduled rate and assign it to the `lr`
entry of every parameter group of the optimizer. -/
noncomputable def adjust_learning_rate (init_lr : ℝ) (groups : List ParamGroup)
    (step warmup : ℝ) : List ParamGroup :=
  groups.map (fun _ => ⟨lrFormula init_lr warmup step⟩)

/-- Default warmup length in the signature of `adjust_learning_rate`; the
call in the training loop never overrides it. -/
def warmup_step_default : ℝ := 4000

/-- Values of `train_step+1` passed to `adjust_learning_rate` across the run,
given the number of training batches in each epoch and the current value of
`train_step` (0 at the top of `train`); `train_step` is incremented once per
optimizer step and never reset at epoch boundaries. -/
def stepNumsForEpochs (s : Nat) : List Nat → List Nat
  | [] => []
  | b :: bs =>
    ((List.range b).map (fun i => s + i + 1)) ++ stepNumsForEpochs (s + b) bs

/-- Number of positional parameters of `def test(model, test_loader, args)`
(line 126 of `train.py`); none of them has a default. -/
def testPositionalParams : Nat := 3

/-- Number of positional arguments at the call site
`test_metrics = test(model, test_loader)` (line 236 of `train.py`). -/
def mainTestCallArity : Nat := 2

/-- Outcome of the part of `__main__` that follows `train` returning: either
Python raises `TypeError` at the `test(...)` call because the arity does not
match, or the test loop runs and the support-set size (`ligand_cnt = 16`) and
test metrics are appended to `MetaDTA.txt`. -/
inductive MainTail where
  | typeError : MainTail
  | summaryAppended : Nat → ℚ × ℚ → MainTail

/-- Post-training tail of `__main__` (lines 236-242 of `train.py`): call
`test`, then append the summary lines.  Python checks call arity before
executing the callee's body, so a mismatch raises `TypeError` first and
nothing below line 236 runs. -/
def mainAfterTraining (testMetrics : ℚ × ℚ) : MainTail :=
  if mainTestCallArity = testPositionalParams then
    MainTail.summaryAppended 16 testMetrics
  else MainTail.typeError

theorem selectByMask_maskOf_self (t : List ℚ) :
    selectByMask (maskOf t) t = t.filter (fun v => decide (0 < v)) := by
  induction t with
  | nil => rfl
  | cons x t ih =>
    simp only [maskOf, List.map_cons, selectByMask, List.zip_cons_cons,
      List.filter_cons] at ih ⊢
    cases h : decide (0 < x) <;> simp_all [selectByMask, maskOf]

theorem selectByMask_maskOf_zip (t p : List ℚ) (h : t.length = p.length) :
    selectByMask (maskOf t) p =
      ((t.zip p).filter (fun q => decide (0 < q.1))).map Prod.snd := by
  induction t generalizing p with
  | nil =>
    cases p with
    | nil => rfl
    | cons y p => simp at h
  | cons x t ih =>
    cases p with
    | nil => simp at h
    | cons y p =>
      simp only [List.length_cons, Nat.add_right_cancel_iff] at h
      simp only [maskOf, List.map_cons, selectByMask, List.zip_cons_cons,
        List.filter_cons] at ih ⊢
      cases hx : decide (0 < x) <;> simp_all [selectByMask, maskOf]

theorem length_selectByMask_maskOf (t p : List ℚ) (h : t.length = p.length) :
    (selectByMask (maskOf t) p).length = t.countP (fun v => decide (0 < v)) := by
  induction t generalizing p with
  | nil =>
    cases p with
    | nil => rfl
    | cons y p => simp at h
  | cons x t ih =>
    cases p with
    | nil => simp at h
    | cons y p =>
      simp only [List.length_cons, Nat.add_right_cancel_iff] at h
      simp only [maskOf, List.map_cons, selectByMask, List.zip_cons_cons,
        List.filter_cons, List.countP_cons] at ih ⊢
      cases hx : decide (0 < x) <;>
        simp_all [selectByMask, maskOf, Nat.add_comm]

theorem selectByMask_allFalse (mask : List Bool) (xs : List ℚ)
    (h : ∀ m ∈ mask, m = false) : selectByMask mask xs = [] := by
  induction mask generalizing xs with
  | nil => rfl
  | cons m mask ih =>
    cases xs with
    | nil => rfl
    | cons x xs =>
      have hm : m = false := h m (List.mem_cons_self m mask)
      subst hm
      simp only [selectByMask, List.zip_cons_cons, List.filter_cons]
      exact ih xs (fun m hmem => h m (List.mem_cons_of_mem _ hmem))

theorem flat3_length (x : Tensor3) :
    (flat3 x).length = ((shape3 x).map List.sum).sum := by
  simp only [flat3, shape3, List.length_flatten, List.map_map]
  refine congrArg List.sum (List.map_congr_left ?_)
  intro e _
  simp [List.length_flatten]

theorem shape3_querySlice (s : Nat) (x : Tensor3) :
    shape3 (querySlice s x) = (shape3 x).map (List.drop s) := by
  simp [shape3, querySlice, List.map_map, Function.comp, List.map_drop]

theorem queryLen_of_shape_eq (s : Nat) (t p : Tensor3)
    (h : shape3 t = shape3 p) :
    (flat3 (querySlice s t)).length = (flat3 (querySlice s p)).length := by
  rw [flat3_length, flat3_length, shape3_querySlice, shape3_querySlice, h]

theorem accumBatch_posZero (acc : List ℚ × List ℚ) (b : BatchResult)
    (h : posCount b = 0) : accumBatch acc b = Except.ok acc := by
  have htq : ∀ v ∈ queryTruth b, ¬(0 < v) := by
    intro v hv
    have := List.countP_eq_zero.mp h
    simpa using this v hv
  have hmask : ∀ m ∈ maskOf (queryTruth b), m = false := by
    intro m hm
    rcases List.mem_map.mp hm with ⟨v, hv, rfl⟩
    simpa using htq v hv
  have hsel1 : selectByMask (maskOf (queryTruth b)) (queryTruth b) = [] :=
    selectByMask_allFalse _ _ hmask
  have hsel2 : selectByMask (maskOf (queryTruth b)) (queryPred b) = [] :=
    selectByMask_allFalse _ _ hmask
  show (match extendSqueezed acc.1 (selectByMask (maskOf (queryTruth b)) (queryTruth b)) with
    | Except.error e => Except.error e
    | Except.ok t1 =>
      match extendSqueezed acc.2 (selectByMask (maskOf (queryTruth b)) (queryPred b)) with
      | Except.error e => Except.error e
      | Except.ok p1 => Except.ok (t1, p1)) = Except.ok acc
  rw [hsel1, hsel2]
  simp [extendSqueezed]

theorem epochAccumFrom_posZero (bs : List BatchResult)
    (h : ∀ b ∈ bs, posCount b = 0) (acc : List ℚ × List ℚ) :
    epochAccumFrom acc bs = Except.ok acc := by
  induction bs generalizing acc with
  | nil => rfl
  | cons b bs ih =>
    have hb : posCount b = 0 := h b (List.mem_cons_self b bs)
    simp only [epochAccumFrom, accumBatch_posZero acc b hb]
    exact ih (fun c hc => h c (List.mem_cons_of_mem _ hc)) acc

theorem accumBatch_posOne (acc : List ℚ × List ℚ) (b : BatchResult)
    (h : posCount b = 1) : accumBatch acc b = Except.error () := by
  have hsel : selectByMask (maskOf (queryTruth b)) (queryTruth b) =
      (queryTruth b).filter (fun v => decide (0 < v)) :=
    selectByMask_maskOf_self _
  have hlen : (selectByMask (maskOf (queryTruth b)) (queryTruth b)).length = 1 := by
    rw [hsel, ← List.countP_eq_length_filter]
    exact h
  show (match extendSqueezed acc.1 (selectByMask (maskOf (queryTruth b)) (queryTruth b)) with
    | Except.error e => Except.error e
    | Except.ok t1 =>
      match extendSqueezed acc.2 (selectByMask (maskOf (queryTruth b)) (queryPred b)) with
      | Except.error e => Except.error e
      | Except.ok p1 => Except.ok (t1, p1)) = Except.error ()
  rw [extendSqueezed, if_pos hlen]

theorem epochAccumFrom_memOne (bs : List BatchResult) (b : BatchResult)
    (hb : b ∈ bs) (h1 : posCount b = 1) (acc : List ℚ × List ℚ) :
    epochAccumFrom acc bs = Except.error () := by
  induction bs generalizing acc with
  | nil => cases hb
  | cons c cs ih =>
    rcases List.mem_cons.mp hb with rfl | hmem
    · simp only [epochAccumFrom, accumBatch_posOne acc b h1]
    · cases hc : accumBatch acc c with
      | error e => cases e; simp only [epochAccumFrom, hc]
      | ok acc2 => simp only [epochAccumFrom, hc]; exact ih hmem acc2

theorem epochFlags_length (b : Option ℚ) (ls : List ℚ) :
    (epochFlags b ls).length = ls.length := by
  induction ls generalizing b with
  | nil => rfl
  | cons l ls ih => simp [epochFlags, ih]

theorem trainStep_best_loss {M S O A : Type} (sd : M → S) (mA : Nat → M)
    (oA : Nat → O) (a : A) (st : TrainState M S O A) (e : Nat) (l : ℚ) :
    (trainStep sd mA oA a st e l).best_loss =
      if ltInf l st.best_loss then some l else st.best_loss := by
  unfold trainStep; split <;> rfl

theorem trainStep_best_model {M S O A : Type} (sd : M → S) (mA : Nat → M)
    (oA : Nat → O) (a : A) (st : TrainState M S O A) (e : Nat) (l : ℚ) :
    (trainStep sd mA oA a st e l).best_model =
      if ltInf l st.best_loss then some (mA e) else st.best_model := by
  unfold trainStep; split <;> rfl

theorem trainStep_checkpoint {M S O A : Type} (sd : M → S) (mA : Nat → M)
    (oA : Nat → O) (a : A) (st : TrainState M S O A) (e : Nat) (l : ℚ) :
    (trainStep sd mA oA a st e l).checkpoint =
      if ltInf l st.best_loss then some ⟨sd (mA e), oA e, a⟩ else st.checkpoint := by
  unfold trainStep; split <;> rfl

theorem trainStep_trigger {M S O A : Type} (sd : M → S) (mA : Nat → M)
    (oA : Nat → O) (a : A) (st : TrainState M S O A) (e : Nat) (l : ℚ) :
    (trainStep sd mA oA a st e l).trigger_count =
      if ltInf l st.best_loss then some 0 else st.trigger_count := by
  unfold trainStep; split <;> rfl

theorem trainStep_epochs_run {M S O A : Type} (sd : M → S) (mA : Nat → M)
    (oA : Nat → O) (a : A) (st : TrainState M S O A) (e : Nat) (l : ℚ) :
    (trainStep sd mA oA a st e l).epochs_run = st.epochs_run + 1 := by
  unfold trainStep; split <;> rfl

theorem trainLoopAux_flags {M S O A : Type} (sd : M → S) (mA : Nat → M)
    (oA : Nat → O) (a : A) (ls : List ℚ) (e : Nat) (st : TrainState M S O A) :
    (trainLoopAux sd mA oA a e st ls).2 = epochFlags st.best_loss ls := by
  induction ls generalizing e st with
  | nil => rfl
  | cons l ls ih =>
    simp only [trainLoopAux, epochFlags]
    rw [ih, trainStep_best_loss]

theorem ltInf_update (x l : ℚ) (b : Option ℚ) :
    (ltInf x (if ltInf l b then some l else b) = true) ↔
      (ltInf x b = true ∧ x < l) := by
  cases b with
  | none => simp [ltInf]
  | some m =>
    by_cases h : l < m
    · simp only [ltInf, decide_eq_true_eq, h, if_true]
      exact ⟨fun hxl => ⟨lt_trans hxl h, hxl⟩, fun hp => hp.2⟩
    · simp only [ltInf, decide_eq_true_eq, h, if_false]
      exact ⟨fun hxm => ⟨hxm, lt_of_lt_of_le hxm (not_lt.mp h)⟩, fun hp => hp.1⟩

theorem epochFlags_getD_iff (ls : List ℚ) (b : Option ℚ) (e : Nat)
    (he : e < ls.length) :
    ((epochFlags b ls).getD e false = true) ↔
      (ltInf (ls.getD e 0) b = true ∧
        ∀ j, j < e → ls.getD e 0 < ls.getD j 0) := by
  induction ls generalizing b e with
  | nil => simp at he
  | cons l ls ih =>
    cases e with
    | zero => simp [epochFlags]
    | succ e =>
      have he' : e < ls.length := Nat.lt_of_succ_lt_succ he
      simp only [epochFlags, List.getD_cons_succ]
      rw [ih _ e he', ltInf_update]
      constructor
      · rintro ⟨⟨hb, hl⟩, hall⟩
        refine ⟨hb, fun j hj => ?_⟩
        cases j with
        | zero => simpa using hl
        | succ j => exact hall j (Nat.lt_of_succ_lt_succ hj)
      · rintro ⟨hb, hall⟩
        refine ⟨⟨hb, ?_⟩, fun j hj => hall (j + 1) (Nat.succ_lt_succ hj)⟩
        simpa using hall 0 (Nat.succ_pos e)

theorem trainLoopAux_best_model {M S O A : Type} (sd : M → S) (mA : Nat → M)
    (oA : Nat → O) (a : A) (ls : List ℚ) (e : Nat) (st : TrainState M S O A) :
    (trainLoopAux sd mA oA a e st ls).1.best_model =
      (match lastTrue (epochFlags st.best_loss ls) with
       | some i => some (mA (e + i))
       | none => st.best_model) := by
  induction ls generalizing e st with
  | nil => rfl
  | cons l ls ih =>
    simp only [trainLoopAux, epochFlags, lastTrue]
    rw [ih, trainStep_best_loss]
    cases hlt : lastTrue (epochFlags
        (if ltInf l st.best_loss then some l else st.best_loss) ls) with
    | some i =>
      have harith : e + 1 + i = e + (i + 1) := by omega
      simp [harith]
    | none =>
      cases hf : ltInf l st.best_loss <;>
        simp [trainStep_best_model, hf]

theorem trainLoopAux_epochs_run {M S O A : Type} (sd : M → S) (mA : Nat → M)
    (oA : Nat → O) (a : A) (ls : List ℚ) (e : Nat) (st : TrainState M S O A) :
    (trainLoopAux sd mA oA a e st ls).1.epochs_run = st.epochs_run + ls.length := by
  induction ls generalizing e st with
  | nil => rfl
  | cons l ls ih =>
    simp only [trainLoopAux, List.length_cons]
    rw [ih, trainStep_epochs_run]
    omega

theorem trainLoopAux_trigger {M S O A : Type} (sd : M → S) (mA : Nat → M)
    (oA : Nat → O) (a : A) (ls : List ℚ) (e : Nat) (st : TrainState M S O A)
    (h : st.trigger_count = none ∨ st.trigger_count = some 0) :
    (trainLoopAux sd mA oA a e st ls).1.trigger_count = none ∨
      (trainLoopAux sd mA oA a e st ls).1.trigger_count = some 0 := by
  induction ls generalizing e st with
  | nil => exact h
  | cons l ls ih =>
    simp only [trainLoopAux]
    refine ih (e + 1) _ ?_
    rw [trainStep_trigger]
    cases hf : ltInf l st.best_loss <;> simp [h]

theorem trainLoopAux_preserve_some {M S O A : Type} (sd : M → S) (mA : Nat → M)
    (oA : Nat → O) (a : A) (ls : List ℚ) (e : Nat) (st : TrainState M S O A)
    (hc : st.checkpoint.isSome) (hm : st.best_model.isSome) :
    (trainLoopAux sd mA oA a e st ls).1.checkpoint.isSome ∧
      (trainLoopAux sd mA oA a e st ls).1.best_model.isSome := by
  induction ls generalizing e st with
  | nil => exact ⟨hc, hm⟩
  | cons l ls ih =>
    simp only [trainLoopAux]
    refine ih (e + 1) _ ?_ ?_
    · rw [trainStep_checkpoint]
      cases hf : ltInf l st.best_loss <;> simp [hc]
    · rw [trainStep_best_model]
      cases hf : ltInf l st.best_loss <;> simp [hm]

theorem stepNumsForEpochs_eq (counts : List Nat) (s : Nat) :
    stepNumsForEpochs s counts =
      (List.range counts.sum).map (fun i => s + i + 1) := by
  induction counts generalizing s with
  | nil => rfl
  | cons b bs ih =>
    simp only [stepNumsForEpochs, List.sum_cons, List.range_add,
      List.map_append, List.map_map]
    rw [ih]
    congr 1
    refine List.map_congr_left ?_
    intro i _
    simp only [Function.comp]
    omega

theorem lr_min_left (w s : ℝ) (hw : 1 ≤ w) (hs : 0 < s) (hsw : s ≤ w) :
    s * w ^ (-1.5 : ℝ) ≤ s ^ (-(0.5 : ℝ)) := by
  have hw0 : (0 : ℝ) < w := lt_of_lt_of_le one_pos hw
  have hws : (0 : ℝ) < w ^ (1.5 : ℝ) := Real.rpow_pos_of_pos hw0 _
  have hss : (0 : ℝ) < s ^ (0.5 : ℝ) := Real.rpow_pos_of_pos hs _
  rw [show (-1.5 : ℝ) = -(1.5 : ℝ) by norm_num, Real.rpow_neg hw0.le,
    Real.rpow_neg hs.le, ← div_eq_mul_inv, inv_eq_one_div,
    div_le_div_iff₀ hws hss, one_mul]
  have hpow : s * s ^ (0.5 : ℝ) = s ^ (1.5 : ℝ) := by
    nth_rewrite 1 [← Real.rpow_one s]
    rw [← Real.rpow_add hs]
    norm_num
  rw [hpow]
  exact Real.rpow_le_rpow hs.le hsw (by norm_num)

theorem lr_min_right (w s : ℝ) (hw : 1 ≤ w) (hws : w ≤ s) :
    s ^ (-(0.5 : ℝ)) ≤ s * w ^ (-1.5 : ℝ) := by
  have hw0 : (0 : ℝ) < w := lt_of_lt_of_le one_pos hw
  have hs : (0 : ℝ) < s := lt_of_lt_of_le hw0 hws
  have hwp : (0 : ℝ) < w ^ (1.5 : ℝ) := Real.rpow_pos_of_pos hw0 _
  have hsp : (0 : ℝ) < s ^ (0.5 : ℝ) := Real.rpow_pos_of_pos hs _
  rw [show (-1.5 : ℝ) = -(1.5 : ℝ) by norm_num, Real.rpow_neg hw0.le,
    Real.rpow_neg hs.le, ← div_eq_mul_inv, inv_eq_one_div,
    div_le_div_iff₀ hsp hwp, one_mul]
  have hpow : s * s ^ (0.5 : ℝ) = s ^ (1.5 : ℝ) := by
    nth_rewrite 1 [← Real.rpow_one s]
    rw [← Real.rpow_add hs]
    norm_num
  rw [hpow]
  exact Real.rpow_le_rpow hw0.le hws (by norm_num)

theorem lrFormula_below (init_lr w s : ℝ) (hw : 1 ≤ w) (hs : 0 < s)
    (hsw : s ≤ w) :
    lrFormula init_lr w s = init_lr * w ^ (0.5 : ℝ) * (s * w ^ (-1.5 : ℝ)) := by
  unfold lrFormula
  rw [min_eq_left (lr_min_left w s hw hs hsw)]

theorem lrFormula_above (init_lr w s : ℝ) (hw : 1 ≤ w) (hws : w ≤ s) :
    lrFormula init_lr w s = init_lr * w ^ (0.5 : ℝ) * s ^ (-(0.5 : ℝ)) := by
  unfold lrFormula
  rw [min_eq_right (lr_min_right w s hw hws)]

/-- C1 counterexample: a batch whose query region holds exactly one strictly
positive `target_y_f` entry (support size 1, query values `[2]`).  The claim
predicts that the epoch lists receive that entry and its prediction; instead
the accumulation raises `TypeError` (`squeeze()` of a one-element selection is
0-dimensional, its `tolist()` a bare float, and `list += float` fails), so
nothing is appended. -/
theorem C1_masking_counterexample :
    accumBatch ([], []) ⟨[[[0]]], [[[0], [2]]], [[[5], [7]]], 1⟩ = Except.error ()
    ∧ posCount ⟨[[[0]]], [[[0], [2]]], [[[5], [7]]], 1⟩ = 1 :=
  ⟨rfl, by decide⟩

/-- C1 (amended): for every batch whose `y_pred` has the shape of
`target_y_f` and whose query region does NOT hold exactly one strictly
positive `target_y_f` entry, the epoch truth and prediction lists receive
exactly the strictly positive entries of the query region of `target_y_f`
and the `y_pred` entries at those same positions, in order; the count
appended equals the number of strictly positive entries in the query region.
A batch with exactly one such entry instead aborts with `TypeError`. -/
theorem C1_masking_amended (b : BatchResult) (acc : List ℚ × List ℚ)
    (hshape : shape3 b.target_y_f = shape3 b.y_pred)
    (hone : posCount b ≠ 1) :
    accumBatch acc b = Except.ok
      (acc.1 ++ (queryTruth b).filter (fun v => decide (0 < v)),
       acc.2 ++ (((queryTruth b).zip (queryPred b)).filter
         (fun q => decide (0 < q.1))).map Prod.snd)
    ∧ ((queryTruth b).filter (fun v => decide (0 < v))).length = posCount b := by
  have hlen : (queryTruth b).length = (queryPred b).length :=
    queryLen_of_shape_eq (supportSize b) _ _ hshape
  have htsel : selectByMask (maskOf (queryTruth b)) (queryTruth b) =
      (queryTruth b).filter (fun v => decide (0 < v)) :=
    selectByMask_maskOf_self _
  have htlen : ((queryTruth b).filter (fun v => decide (0 < v))).length =
      posCount b := (List.countP_eq_length_filter _ _).symm
  have hpsel : selectByMask (maskOf (queryTruth b)) (queryPred b) =
      (((queryTruth b).zip (queryPred b)).filter
        (fun q => decide (0 < q.1))).map Prod.snd :=
    selectByMask_maskOf_zip _ _ hlen
  have hplen : (selectByMask (maskOf (queryTruth b)) (queryPred b)).length =
      posCount b := length_selectByMask_maskOf _ _ hlen
  refine ⟨?_, htlen⟩
  show (match extendSqueezed acc.1
      (selectByMask (maskOf (queryTruth b)) (queryTruth b)) with
    | Except.error e => Except.error e
    | Except.ok t1 =>
      match extendSqueezed acc.2
          (selectByMask (maskOf (queryTruth b)) (queryPred b)) with
      | Except.error e => Except.error e
      | Except.ok p1 => Except.ok (t1, p1)) = _
  rw [htsel, hpsel]
  rw [extendSqueezed, if_neg (by rw [htlen]; exact hone)]
  rw [extendSqueezed, if_neg (by rw [← hpsel, hplen]; exact hone)]

/-- C1 witness: a batch with two strictly positive query entries satisfies
the amended claim's hypotheses and both appended lists match the masked
selections. -/
theorem C1_masking_witness :
    shape3 (⟨[[[0]]], [[[0], [2], [3]]], [[[5], [7], [9]]], 1⟩ :
        BatchResult).target_y_f =
      shape3 (⟨[[[0]]], [[[0], [2], [3]]], [[[5], [7], [9]]], 1⟩ :
        BatchResult).y_pred
    ∧ posCount (⟨[[[0]]], [[[0], [2], [3]]], [[[5], [7], [9]]], 1⟩ :
        BatchResult) ≠ 1
    ∧ (accumBatch ([], []) ⟨[[[0]]], [[[0], [2], [3]]], [[[5], [7], [9]]], 1⟩ =
        Except.ok
          (([] : List ℚ) ++ (queryTruth
              ⟨[[[0]]], [[[0], [2], [3]]], [[[5], [7], [9]]], 1⟩).filter
                (fun v => decide (0 < v)),
           ([] : List ℚ) ++ (((queryTruth
              ⟨[[[0]]], [[[0], [2], [3]]], [[[5], [7], [9]]], 1⟩).zip
                (queryPred
              ⟨[[[0]]], [[[0], [2], [3]]], [[[5], [7], [9]]], 1⟩)).filter
                (fun q => decide (0 < q.1))).map Prod.snd)
        ∧ ((queryTruth
            ⟨[[[0]]], [[[0], [2], [3]]], [[[5], [7], [9]]], 1⟩).filter
              (fun v => decide (0 < v))).length =
          posCount ⟨[[[0]]], [[[0], [2], [3]]], [[[5], [7], [9]]], 1⟩) :=
  ⟨by decide, by decide,
    C1_masking_amended ⟨[[[0]]], [[[0], [2], [3]]], [[[5], [7], [9]]], 1⟩
      ([], []) (by decide) (by decide)⟩

/-- C2: the checkpoint at `{logdir}/model.pt` is overwritten at an epoch iff
that epoch's validation loss is strictly below every earlier epoch's
validation loss (the best seen so far, starting from `float(inf)`); when it
is overwritten, the saved record holds exactly the fields
`model_state_dict`, `optimizer_state_dict` and `args`, and the deep copy of
the current model becomes the new best model; on losses `[5, 3, 4, 2]` the
writes happen exactly at epochs 0, 1 and 3. -/
theorem C2_checkpoint (losses : List ℚ) (e : Nat) (he : e < losses.length)
    {M S O A : Type} (sd : M → S) (mA : Nat → M) (oA : Nat → O) (a : A) :
    (trainLoop sd mA oA a losses).2 = epochFlags none losses
    ∧ ((epochFlags none losses).getD e false = true ↔
        ∀ j, j < e → losses.getD e 0 < losses.getD j 0)
    ∧ (∀ (st : TrainState M S O A) (ep : Nat) (l : ℚ),
        ltInf l st.best_loss = true →
          (trainStep sd mA oA a st ep l).checkpoint =
            some ⟨sd (mA ep), oA ep, a⟩ ∧
          (trainStep sd mA oA a st ep l).best_model = some (mA ep))
    ∧ epochFlags none [5, 3, 4, 2] = [true, true, false, true] := by
  refine ⟨trainLoopAux_flags sd mA oA a losses 0 _, ?_, ?_, by decide⟩
  · have h := epochFlags_getD_iff losses none e he
    simpa [ltInf] using h
  · intro st ep l hl
    rw [trainStep_checkpoint, trainStep_best_model, if_pos hl, if_pos hl]
    exact ⟨rfl, rfl⟩

/-- C2 witness: instance of the checkpoint characterization at the loss
sequence `[5, 3, 4, 2]` and epoch 2. -/
theorem C2_checkpoint_witness :
    (2 < ([5, 3, 4, 2] : List ℚ).length)
    ∧ ((trainLoop (fun n : Nat => n) (fun n => n) (fun n => n) 0
          [5, 3, 4, 2]).2 = epochFlags none [5, 3, 4, 2]
      ∧ ((epochFlags none [5, 3, 4, 2]).getD 2 false = true ↔
          ∀ j, j < 2 →
            ([5, 3, 4, 2] : List ℚ).getD 2 0 < ([5, 3, 4, 2] : List ℚ).getD j 0)
      ∧ (∀ (st : TrainState Nat Nat Nat Nat) (ep : Nat) (l : ℚ),
          ltInf l st.best_loss = true →
            (trainStep (fun n : Nat => n) (fun n => n) (fun n => n) 0
                st ep l).checkpoint = some ⟨ep, ep, 0⟩ ∧
            (trainStep (fun n : Nat => n) (fun n => n) (fun n => n) 0
                st ep l).best_model = some ep)
      ∧ epochFlags none [5, 3, 4, 2] = [true, true, false, true]) :=
  ⟨by decide,
    C2_checkpoint [5, 3, 4, 2] 2 (by decide)
      (fun n : Nat => n) (fun n => n) (fun n => n) 0⟩

/-- C3 counterexample: with zero epochs no improvement ever occurs, and
`train` does not return the initial model — `best_model` was never assigned,
so `return best_model` raises `UnboundLocalError` and no model at all is
returned. -/
theorem C3_return_counterexample :
    trainReturn (fun n : Nat => n) (fun n => n) (fun n => n) 0 [] =
      Except.error ()
    ∧ ∀ m : Nat,
        trainReturn (fun n : Nat => n) (fun n => n) (fun n => n) 0 [] ≠
          Except.ok m :=
  ⟨rfl, fun m h => by cases h⟩

/-- C3 (amended): after iterating over all epochs, `train` returns the
deep-copied model from the last epoch whose validation loss strictly
improved the best; if no epoch ever improved (e.g. zero epochs), the
`return best_model` statement raises `UnboundLocalError` instead of
returning the initial model.  With at least one epoch, some epoch always
improves (the first always beats `float(inf)`). -/
theorem C3_return_amended {M S O A : Type} (sd : M → S) (mA : Nat → M)
    (oA : Nat → O) (a : A) (losses : List ℚ) :
    trainReturn sd mA oA a losses =
      (match lastTrue (epochFlags none losses) with
       | some i => Except.ok (mA i)
       | none => Except.error ())
    ∧ (losses ≠ [] → ∃ i, lastTrue (epochFlags none losses) = some i) := by
  constructor
  · unfold trainReturn trainLoop
    rw [trainLoopAux_best_model]
    cases hlt : lastTrue (epochFlags none losses) with
    | some i => simp [initTrainState, hlt]
    | none => simp [initTrainState, hlt]
  · intro hne
    cases losses with
    | nil => exact absurd rfl hne
    | cons l ls =>
      simp only [epochFlags, lastTrue]
      cases hlt : lastTrue (epochFlags
          (if ltInf l none then some l else none) ls) with
      | some i => exact ⟨i + 1, by simp [hlt]⟩
      | none => exact ⟨0, by simp [hlt, ltInf]⟩

/-- C3 witness: instance of the amended return characterization on the loss
sequence `[5, 3, 4, 2]`; the run returns the model deep-copied at epoch 3. -/
theorem C3_return_witness :
    trainReturn (fun n : Nat => n) (fun n => n) (fun n => n) 0 [5, 3, 4, 2] =
      (match lastTrue (epochFlags none [5, 3, 4, 2]) with
       | some i => Except.ok i
       | none => Except.error ())
    ∧ (([5, 3, 4, 2] : List ℚ) ≠ [] →
        ∃ i, lastTrue (epochFlags none [5, 3, 4, 2]) = some i) :=
  C3_return_amended (fun n : Nat => n) (fun n => n) (fun n => n) 0 [5, 3, 4, 2]

/-- C4: the post-training tail of `__main__` never reaches the test loop or
the summary file: the call `test(model, test_loader)` passes two positional
arguments to the three-parameter `def test(model, test_loader, args)`, so
Python raises `TypeError` before the evaluation loop runs and nothing is
appended to `MetaDTA.txt`. -/
theorem C4_main_test_typeerror (tm : ℚ × ℚ) :
    mainAfterTraining tm = MainTail.typeError
    ∧ mainTestCallArity ≠ testPositionalParams :=
  ⟨rfl, by decide⟩

/-- C5: `adjust_learning_rate` sets the `lr` of every parameter group to
`init_lr * warmup_step**0.5 * min(step_num * warmup_step**-1.5,
step_num**-0.5)`, and across the whole run the training loop passes
`train_step+1` as `step_num`: the 1-indexed global batch count
`[1, 2, ..., total]`, never 0, strictly increasing, not reset at epoch
boundaries. -/
theorem C5_lr_schedule (init_lr warmup step : ℝ) (groups : List ParamGroup)
    (hstep : 1 ≤ step) (counts : List Nat) :
    (∀ pg ∈ adjust_learning_rate init_lr groups step warmup,
      pg.lr = init_lr * warmup ^ (0.5 : ℝ) *
        min (step * warmup ^ (-1.5 : ℝ)) (step ^ (-(0.5 : ℝ))))
    ∧ stepNumsForEpochs 0 counts =
        (List.range counts.sum).map (fun i => i + 1) := by
  constructor
  · intro pg hpg
    rcases List.mem_map.mp hpg with ⟨g, hg, rfl⟩
    rfl
  · rw [stepNumsForEpochs_eq]
    refine List.map_congr_left ?_
    intro i _
    omega

/-- C5 witness: instance at `init_lr = 1`, `warmup_step = 4000`,
`step_num = 1`, one parameter group, and epochs of 2 and 3 training batches. -/
theorem C5_lr_schedule_witness :
    (1 : ℝ) ≤ 1
    ∧ ((∀ pg ∈ adjust_learning_rate 1 [⟨0⟩] 1 4000,
        pg.lr = 1 * (4000 : ℝ) ^ (0.5 : ℝ) *
          min ((1 : ℝ) * (4000 : ℝ) ^ (-1.5 : ℝ)) ((1 : ℝ) ^ (-(0.5 : ℝ))))
      ∧ stepNumsForEpochs 0 [2, 3] =
          (List.range ([2, 3] : List Nat).sum).map (fun i => i + 1)) :=
  ⟨by norm_num, C5_lr_schedule 1 4000 1 [⟨0⟩] (by norm_num) [2, 3]⟩

/-- C6: for fixed `init_lr > 0` and `warmup_step ≥ 1`, the scheduled rate is
strictly increasing in `step_num` on `[1, warmup_step]`, strictly decreasing
past `warmup_step`, where it equals the inverse-square-root decay
`init_lr * warmup_step^0.5 * step_num^-0.5`. -/
theorem C6_lr_monotone (init_lr w : ℝ) (hinit : 0 < init_lr) (hw : 1 ≤ w) :
    (∀ s1 s2 : ℝ, 1 ≤ s1 → s1 < s2 → s2 ≤ w →
      lrFormula init_lr w s1 < lrFormula init_lr w s2)
    ∧ (∀ s1 s2 : ℝ, w ≤ s1 → s1 < s2 →
      lrFormula init_lr w s2 < lrFormula init_lr w s1)
    ∧ (∀ s : ℝ, w ≤ s →
      lrFormula init_lr w s = init_lr * w ^ (0.5 : ℝ) * s ^ (-(0.5 : ℝ))) := by
  have hw0 : (0 : ℝ) < w := lt_of_lt_of_le one_pos hw
  have hwhalf : (0 : ℝ) < w ^ (0.5 : ℝ) := Real.rpow_pos_of_pos hw0 _
  have hcoef : (0 : ℝ) < init_lr * w ^ (0.5 : ℝ) := mul_pos hinit hwhalf
  refine ⟨?_, ?_, fun s hws => lrFormula_above init_lr w s hw hws⟩
  · intro s1 s2 h1 h12 h2w
    have hs1 : (0 : ℝ) < s1 := lt_of_lt_of_le one_pos h1
    have hs2 : (0 : ℝ) < s2 := lt_trans hs1 h12
    rw [lrFormula_below init_lr w s1 hw hs1 (le_of_lt (lt_of_lt_of_le h12 h2w)),
      lrFormula_below init_lr w s2 hw hs2 h2w]
    have hwm : (0 : ℝ) < w ^ (-1.5 : ℝ) := Real.rpow_pos_of_pos hw0 _
    have key : (init_lr * w ^ (0.5 : ℝ) * w ^ (-1.5 : ℝ)) * s1 <
        (init_lr * w ^ (0.5 : ℝ) * w ^ (-1.5 : ℝ)) * s2 :=
      mul_lt_mul_of_pos_left h12 (mul_pos hcoef hwm)
    calc init_lr * w ^ (0.5 : ℝ) * (s1 * w ^ (-1.5 : ℝ))
        = (init_lr * w ^ (0.5 : ℝ) * w ^ (-1.5 : ℝ)) * s1 := by ring
      _ < (init_lr * w ^ (0.5 : ℝ) * w ^ (-1.5 : ℝ)) * s2 := key
      _ = init_lr * w ^ (0.5 : ℝ) * (s2 * w ^ (-1.5 : ℝ)) := by ring
  · intro s1 s2 hws1 h12
    have hs1 : (0 : ℝ) < s1 := lt_of_lt_of_le hw0 hws1
    have hs2 : (0 : ℝ) < s2 := lt_trans hs1 h12
    rw [lrFormula_above init_lr w s1 hw hws1,
      lrFormula_above init_lr w s2 hw (le_of_lt (lt_of_le_of_lt hws1 h12))]
    refine mul_lt_mul_of_pos_left ?_ hcoef
    rw [Real.rpow_neg hs1.le, Real.rpow_neg hs2.le]
    exact inv_strictAnti₀ (Real.rpow_pos_of_pos hs1 _)
      (Real.rpow_lt_rpow hs1.le h12 (by norm_num))

/-- C6 witness: with `init_lr = 1` and `warmup_step = 4`, the rate rises
from step 1 to step 2 and falls from step 4 to step 8. -/
theorem C6_lr_monotone_witness :
    lrFormula 1 4 1 < lrFormula 1 4 2 ∧ lrFormula 1 4 8 < lrFormula 1 4 4 :=
  ⟨(C6_lr_monotone 1 4 (by norm_num) (by norm_num)).1 1 2
      (by norm_num) (by norm_num) (by norm_num),
    (C6_lr_monotone 1 4 (by norm_num) (by norm_num)).2.1 4 8
      (by norm_num) (by norm_num)⟩

/-- C7: the epoch loop runs exactly `n_epochs` epochs whatever the
validation losses are — there is no early-stopping exit path; the trigger
counter is only ever reset to zero (or never assigned) and never incremented
or consulted. -/
theorem C7_no_early_stop {M S O A : Type} (sd : M → S) (mA : Nat → M)
    (oA : Nat → O) (a : A) (losses : List ℚ) :
    (trainLoop sd mA oA a losses).1.epochs_run = losses.length
    ∧ ((trainLoop sd mA oA a losses).1.trigger_count = none ∨
       (trainLoop sd mA oA a losses).1.trigger_count = some 0) := by
  constructor
  · unfold trainLoop
    rw [trainLoopAux_epochs_run]
    simp [initTrainState]
  · exact trainLoopAux_trigger sd mA oA a losses 0 _ (Or.inl rfl)

/-- C8: an epoch in which no batch contributes a strictly positive
`target_y_f` query entry reaches `mean_absolute_error` with empty
collections, and the run aborts with an error (sklearn raises `ValueError`
on an empty sample) rather than producing a silent numeric result. -/
theorem C8_empty_mae_error (batches : List BatchResult)
    (h : ∀ b ∈ batches, posCount b = 0) :
    epochMetrics batches = Except.error () := by
  have hacc : epochAccum batches = Except.ok ([], []) :=
    epochAccumFrom_posZero batches h ([], [])
  unfold epochMetrics
  rw [hacc]
  rfl

/-- C8 witness: an epoch made of one batch whose query targets are all zero
aborts in the metric computation. -/
theorem C8_empty_mae_error_witness :
    (∀ b ∈ [(⟨[[[0]]], [[[0], [0]]], [[[5], [7]]], 1⟩ : BatchResult)],
      posCount b = 0)
    ∧ epochMetrics [(⟨[[[0]]], [[[0], [0]]], [[[5], [7]]], 1⟩ : BatchResult)] =
        Except.error () :=
  ⟨by decide,
    C8_empty_mae_error [⟨[[[0]]], [[[0], [0]]], [[[5], [7]]], 1⟩] (by decide)⟩

/-- C9: a batch whose query region holds exactly one strictly positive
`target_y_f` entry makes the per-batch accumulation raise `TypeError`
(`squeeze()` gives a 0-dimensional tensor, `tolist()` a bare float, and
`list += float` is not iterable), aborting the epoch it belongs to. -/
theorem C9_single_positive_typeerror (batches : List BatchResult)
    (b : BatchResult) (hb : b ∈ batches) (h1 : posCount b = 1) :
    (∀ acc, accumBatch acc b = Except.error ())
    ∧ epochMetrics batches = Except.error () := by
  refine ⟨fun acc => accumBatch_posOne acc b h1, ?_⟩
  have hacc : epochAccum batches = Except.error () :=
    epochAccumFrom_memOne batches b hb h1 ([], [])
  unfold epochMetrics
  rw [hacc]

/-- C9 witness: an epoch containing a batch with a single positive query
entry aborts. -/
theorem C9_single_positive_typeerror_witness :
    posCount (⟨[[[0]]], [[[0], [3]]], [[[4], [6]]], 2⟩ : BatchResult) = 1
    ∧ ((∀ acc, accumBatch acc
          (⟨[[[0]]], [[[0], [3]]], [[[4], [6]]], 2⟩ : BatchResult) =
          Except.error ())
      ∧ epochMetrics [(⟨[[[0]]], [[[0], [3]]], [[[4], [6]]], 2⟩ : BatchResult)] =
          Except.error ()) :=
  ⟨by decide,
    C9_single_positive_typeerror
      [⟨[[[0]]], [[[0], [3]]], [[[4], [6]]], 2⟩]
      ⟨[[[0]]], [[[0], [3]]], [[[4], [6]]], 2⟩
      (List.mem_cons_self _ _) (by decide)⟩

/-- C10: `best_loss` starts at `float(inf)`, so with at least one epoch the
improvement branch fires at epoch 0 (every finite validation loss beats
infinity): the first epoch's write flag is `true`, and after every epoch
boundary from then on a checkpoint exists on disk and a best model is
assigned. -/
theorem C10_first_epoch_checkpoint {M S O A : Type} (sd : M → S)
    (mA : Nat → M) (oA : Nat → O) (a : A) (losses : List ℚ)
    (hne : losses ≠ []) :
    (epochFlags none losses).getD 0 false = true
    ∧ ∀ k, 1 ≤ k → k ≤ losses.length →
        (trainLoop sd mA oA a (losses.take k)).1.checkpoint.isSome ∧
        (trainLoop sd mA oA a (losses.take k)).1.best_model.isSome := by
  cases losses with
  | nil => exact absurd rfl hne
  | cons l ls =>
    constructor
    · simp [epochFlags, ltInf]
    · intro k hk1 hklen
      cases k with
      | zero => omega
      | succ k =>
        have h := trainLoopAux_preserve_some sd mA oA a (ls.take k) 1
          (trainStep sd mA oA a (initTrainState M S O A) 0 l)
          (by rw [trainStep_checkpoint]; simp [initTrainState, ltInf])
          (by rw [trainStep_best_model]; simp [initTrainState, ltInf])
        simpa [trainLoop, List.take_succ_cons, trainLoopAux] using h

/-- C10 witness: instance with two epochs of losses `[5, 3]`. -/
theorem C10_first_epoch_checkpoint_witness :
    (([5, 3] : List ℚ) ≠ [])
    ∧ ((epochFlags none [5, 3]).getD 0 false = true
      ∧ ∀ k, 1 ≤ k → k ≤ ([5, 3] : List ℚ).length →
          (trainLoop (fun n : Nat => n) (fun n => n) (fun n => n) 0
            (([5, 3] : List ℚ).take k)).1.checkpoint.isSome ∧
          (trainLoop (fun n : Nat => n) (fun n => n) (fun n => n) 0
            (([5, 3] : List ℚ).take k)).1.best_model.isSome) :=
  ⟨by decide,
    C10_first_epoch_checkpoint (fun n : Nat => n) (fun n => n) (fun n => n) 0
      [5, 3] (by decide)⟩
